import Mathlib

/-!
Shallow embedding of the thesis-structure analysis core of
`src/app.py` (functions `dividir_secciones`, `revisar_estructura`,
`revisar_subsecciones`, `revisar_contenido`, `revisar_metodologia`,
`analizar_texto`, and the orchestration in `uploader`).

Strings are modelled as Lean `String`/`List Char`.  Python's
case-insensitive, diacritic-aware text handling is modelled for the
character set the program works with: ASCII plus the Spanish accented
letters á é í ó ú ü ñ (and their upper-case forms).  All document lines
handed to the pattern matchers come from splitting on `'\n'`, so they
never contain a newline; hence the regex constructs `.` and `[^\n]`
coincide with "any character" on that domain (`splitLines_no_newline`
below records this fact).
-/

namespace Tesis

/-- Python whitespace characters relevant to `str.strip` / `str.split`
on the program's input domain. -/
def pyWs (c : Char) : Bool :=
  c = ' ' || c = '\t' || c = '\n' || c = '\r' || c = '\x0b' || c = '\x0c'

/-- Python `str.strip()`: drop leading and trailing whitespace. -/
def stripList (l : List Char) : List Char :=
  ((l.dropWhile pyWs).reverse.dropWhile pyWs).reverse

/-- Python `str.lower()` restricted to ASCII plus Spanish accented
upper-case letters. -/
def toLowerSp (c : Char) : Char :=
  if c = 'Á' then 'á' else if c = 'É' then 'é' else if c = 'Í' then 'í'
  else if c = 'Ó' then 'ó' else if c = 'Ú' then 'ú' else if c = 'Ü' then 'ü'
  else if c = 'Ñ' then 'Ñ'.toLower else c.toLower

/-- Python `str.capitalize()`'s upper-casing of the first character,
restricted to ASCII plus Spanish accented lower-case letters. -/
def toUpperSp (c : Char) : Char :=
  if c = 'á' then 'Á' else if c = 'é' then 'É' else if c = 'í' then 'Í'
  else if c = 'ó' then 'Ó' else if c = 'ú' then 'Ú' else if c = 'ü' then 'Ü'
  else if c = 'ñ' then 'ñ'.toUpper else c.toUpper

/-- Line normalisation performed at the top of the segmenter loop:
`line.strip().lower()` (src/app.py line 99). -/
def normalizar (raw : List Char) : List Char :=
  (stripList raw).map toLowerSp

/-- Python `texto.split("\n")`: always at least one (possibly empty) line. -/
def splitLines : List Char → List (List Char)
  | [] => [[]]
  | c :: rest =>
    match splitLines rest with
    | [] => [[]]
    | ls :: lss => if c = '\n' then [] :: ls :: lss else (c :: ls) :: lss

/-- Python `"\n".join(lines)`. -/
def joinLines : List (List Char) → List Char
  | [] => []
  | [l] => l
  | l :: ls => l ++ '\n' :: joinLines ls

/-- Python regex `\w` (word character) on the program's character set:
ASCII alphanumerics, underscore and Spanish accented letters. -/
def isWordChar (c : Char) : Bool :=
  c.isAlphanum || c = '_' ||
    c = 'á' || c = 'é' || c = 'í' || c = 'ó' || c = 'ú' || c = 'ü' || c = 'ñ' ||
    c = 'Á' || c = 'É' || c = 'Í' || c = 'Ó' || c = 'Ú' || c = 'Ü' || c = 'Ñ'

/-- The pattern `pat` occurs literally at position `i` of `line`. -/
def occursAt (pat line : List Char) (i : Nat) : Bool :=
  (line.drop i).take pat.length = pat

/-- Regex `\b` immediately before position `i`. -/
def boundaryBefore (line : List Char) (i : Nat) : Bool :=
  i = 0 || !(isWordChar (line.getD (i - 1) ' '))

/-- Regex `\b` immediately before position `j` seen from the right:
the character at `j` (if any) is not a word character. -/
def boundaryAfter (line : List Char) (j : Nat) : Bool :=
  !(isWordChar (line.getD j ' '))

/-- Regex `\b<pat>\b` searched anywhere in the line.  `pat` begins and
ends with a word character for every pattern of the catalog, so `\b`
amounts to the neighbouring character not being a word character. -/
def hallaPalabra (pat line : List Char) : Bool :=
  (List.range (line.length + 1)).any fun i =>
    occursAt pat line i && boundaryBefore line i && boundaryAfter line (i + pat.length)

/-- Regex `\bmarco[^\n]*te[oó]rico\b` (pattern 4 of src/app.py, after
`.lower()`); the gap may be any characters, document lines holding no
newline. -/
def matchMarco (line : List Char) : Bool :=
  (List.range (line.length + 1)).any fun i =>
    occursAt "marco".data line i && boundaryBefore line i &&
      ((List.range (line.length + 1)).any fun j =>
        decide (i + 5 ≤ j) &&
          (occursAt "teórico".data line j || occursAt "teorico".data line j) &&
          boundaryAfter line (j + 7))

/-- The heading pattern catalog of `dividir_secciones` (src/app.py
lines 80-91), each pattern already lowered as by `patron.lower()`. -/
def patrones : List (List Char → Bool) :=
  [ hallaPalabra "resumen".data,
    hallaPalabra "índice".data,
    hallaPalabra "introducción".data,
    matchMarco,
    fun l => hallaPalabra "metodología".data l || hallaPalabra "metodologia".data l,
    hallaPalabra "resultados".data,
    hallaPalabra "conclusiones".data,
    hallaPalabra "referencias".data,
    hallaPalabra "anexos".data,
    fun l => hallaPalabra "operacionalización de variables".data l ||
      hallaPalabra "operacionalizacion de variables".data l ]

/-- Some heading pattern matches the normalised line.  Python scans the
patterns in order and breaks on the first match, but the effect of a
match (lines 105-110) does not depend on which pattern matched, so only
this disjunction matters. -/
def esEncabezado (line : List Char) : Bool :=
  patrones.any fun p => p line

/-- Leftmost occurrence search: the remainder of `l` after the first
occurrence of `pat`, if any (the boolean content of `re.search` for a
literal pattern). -/
def afterFirst (pat : List Char) : List Char → Option (List Char)
  | [] => if pat = [] then some [] else none
  | c :: rest =>
    if (c :: rest).take pat.length = pat then some ((c :: rest).drop pat.length)
    else afterFirst pat rest

/-- The table pattern `tabla_patron` of src/app.py line 96:
`variable.*dimensiones.*indicadores.*unidad de medida` — the four
tokens as substrings in this order within the line. -/
def tablaMatch (line : List Char) : Bool :=
  (afterFirst "variable".data line >>= fun r1 =>
   afterFirst "dimensiones".data r1 >>= fun r2 =>
   afterFirst "indicadores".data r2 >>= fun r3 =>
   afterFirst "unidad de medida".data r3).isSome

/-- Sanitisation of a matched heading line into a section key:
`re.sub(r"[^a-zA-Záéíóúüñ]", " ", line)` (src/app.py line 107). -/
def sanitizar (l : List Char) : String :=
  String.mk (l.map fun c =>
    if ('a' ≤ c && c ≤ 'z') || ('A' ≤ c && c ≤ 'Z') ||
        c = 'á' || c = 'é' || c = 'í' || c = 'ó' || c = 'ú' || c = 'ü' || c = 'ñ'
    then c else ' ')

/-- Section Map: insertion-ordered association list mirroring a Python
dict (`secciones`). -/
def SecMap : Type := List (String × String)

/-- Python dict assignment `m[k] = v`: replace in place, keeping the
original insertion position, or append at the end. -/
def insertAL (m : List (String × String)) (k v : String) : List (String × String) :=
  match m with
  | [] => [(k, v)]
  | (k', v') :: rest => if k' = k then (k, v) :: rest else (k', v') :: insertAL rest k v

/-- Python `m.get(k)` on the association list. -/
def obtener (m : List (String × String)) (k : String) : Option String :=
  match m with
  | [] => none
  | (k', v) :: rest => if k' = k then some v else obtener rest k

/-- Python `m.get(k, "")`. -/
def obtenerD (m : List (String × String)) (k : String) : String :=
  (obtener m k).getD ""

/-- Python `k in m` on the dict. -/
def tieneClave (m : List (String × String)) (k : String) : Bool :=
  (obtener m k).isSome

/-- Python `sub in s`: substring containment. -/
def contieneSub (sub s : String) : Bool :=
  (afterFirst sub.data s.data).isSome

/-- Scan state of the segmenter loop: the map built so far, the open
section (Python's `current_section`; a matched heading always yields a
non-empty name, so `None` is the only falsy value the Python truthiness
tests can see), and the accumulated body lines. -/
structure SegState where
  secciones : List (String × String)
  current : Option String
  contenido : List (List Char)
deriving DecidableEq

/-- The section name forced by a table-pattern match (src/app.py line 113). -/
def opVar : String := "operacionalización de variables"

/-- Flush the open section into the map:
`secciones[current_section] = "\n".join(current_content).strip()`. -/
def volcar (st : SegState) : List (String × String) :=
  match st.current with
  | none => st.secciones
  | some k => insertAL st.secciones k (String.mk (stripList (joinLines st.contenido)))

/-- One iteration of the segmenter's line loop (src/app.py lines 98-118):
normalise; on a heading match flush and open the sanitised line as the
new section; independently, on a table-pattern match force the section
`opVar` and append the line without flushing; otherwise append the line
to the open section, discarding lines seen before the first heading. -/
def procesarLinea (st : SegState) (raw : List Char) : SegState :=
  let line := normalizar raw
  let h := esEncabezado line
  let st1 : SegState :=
    if h then
      { secciones := volcar st, current := some (sanitizar line), contenido := [] }
    else st
  let t := tablaMatch line
  let st2 : SegState :=
    if t then
      { secciones := st1.secciones, current := some opVar,
        contenido := st1.contenido ++ [line] }
    else st1
  if h || t then st2
  else
    match st2.current with
    | some _ => { st2 with contenido := st2.contenido ++ [line] }
    | none => st2

/-- The Section Segmenter `dividir_secciones` (src/app.py lines 79-123). -/
def dividir_secciones (texto : String) : List (String × String) :=
  volcar ((splitLines texto.data).foldl procesarLinea ⟨[], none, []⟩)

/-- The Expected Structure list `ESTRUCTURA_ESPERADA` (src/app.py lines 25-35). -/
def ESTRUCTURA_ESPERADA : List String :=
  [ "resumen", "índice", "introducción", "marco teórico", "metodología",
    "resultados", "conclusiones", "referencias bibliográficas", "anexos" ]

/-- The Expected Subsections table `SUB_SECCIONES_ESPERADAS`
(src/app.py lines 37-48), in dict insertion order. -/
def SUB_SECCIONES_ESPERADAS : List (String × List String) :=
  [ ("marco teórico",
      [ "revisión de la literatura", "teorías relacionadas",
        "tabla de operacionalización de variables" ]),
    ("metodología",
      [ "diseño de investigación", "objetivos generales", "objetivos específicos" ]) ]

/-- Python `s.capitalize()`: first character upper-cased, the rest
lower-cased. -/
def capitalizar (s : String) : String :=
  match s.data with
  | [] => ""
  | c :: rest => String.mk (toUpperSp c :: rest.map toLowerSp)

/-- The missing-section message of `revisar_estructura` (src/app.py line 131). -/
def msgFaltaSeccion (seccion : String) : String :=
  "Falta la sección: " ++ capitalizar seccion ++ "."

/-- The Structural Validator `revisar_estructura` (src/app.py lines 127-132). -/
def revisar_estructura (secciones : List (String × String)) : List String :=
  ESTRUCTURA_ESPERADA.foldl
    (fun obs seccion =>
      if tieneClave secciones seccion then obs else obs ++ [msgFaltaSeccion seccion])
    []

/-- The missing-subsection message of `revisar_subsecciones`
(src/app.py line 147). -/
def msgFaltaSub (sub seccion : String) : String :=
  "Falta la subsección: \x27" ++ sub ++ "\x27 en la sección " ++ capitalizar seccion ++ "."

/-- Inner loop of `revisar_subsecciones` over one parent's marker list:
skip the table marker when the table was detected as its own section,
otherwise report markers absent from the parent's body. -/
def chequeaSubs (m : List (String × String)) (seccion contenido : String) :
    List String → List String
  | [] => []
  | sub :: resto =>
    if sub = "tabla de operacionalización de variables" ∧ tieneClave m opVar = true then
      chequeaSubs m seccion contenido resto
    else if contieneSub sub contenido = true then
      chequeaSubs m seccion contenido resto
    else
      msgFaltaSub sub seccion :: chequeaSubs m seccion contenido resto

/-- The Subsection Validator `revisar_subsecciones` (src/app.py lines 135-149). -/
def revisar_subsecciones (m : List (String × String)) : List String :=
  SUB_SECCIONES_ESPERADAS.foldl
    (fun obs par => obs ++ chequeaSubs m par.1 (obtenerD m par.1) par.2) []

/-- The short-introduction message (src/app.py line 156). -/
def msgIntroCorta : String := "La sección de Introducción parece demasiado corta."

/-- Python `s.split()` token count: number of maximal non-whitespace runs. -/
def cuentaTokens (l : List Char) : Nat :=
  (l.foldl
    (fun (st : Nat × Bool) c =>
      if pyWs c then (st.1, false)
      else if st.2 then st else (st.1 + 1, true))
    (0, false)).1

/-- The Content Validator's introduction check `revisar_contenido`
(src/app.py lines 152-157). -/
def revisar_contenido (m : List (String × String)) : List String :=
  if cuentaTokens (obtenerD m "introducción").data < 100 then [msgIntroCorta] else []

/-- The missing-research-design message (src/app.py line 164). -/
def msgDiseno : String := "Falta la descripción del diseño de investigación."

/-- The missing-objectives message (src/app.py line 169). -/
def msgObjetivos : String := "Faltan los objetivos generales o específicos."

/-- The methodology checks `revisar_metodologia` (src/app.py lines 160-170). -/
def revisar_metodologia (m : List (String × String)) : List String :=
  let metodologia := obtenerD m "metodología"
  (if contieneSub "diseño de investigación" metodologia then [] else [msgDiseno]) ++
  (if contieneSub "objetivos generales" metodologia ||
      contieneSub "objetivos específicos" metodologia then [] else [msgObjetivos])

/-- The combined analysis `analizar_texto` (src/app.py lines 173-181):
structure, then subsections, then the introduction content check. -/
def analizar_texto (texto : String) : List String :=
  let secciones := dividir_secciones texto
  revisar_estructura secciones ++ revisar_subsecciones secciones ++
    revisar_contenido secciones

/-- The orchestration of the `uploader` route on the extracted text
(src/app.py lines 203-215): the three observation lists handed to the
presentation layer, in display order (content, methodology, structure). -/
def procesarSubida (texto : String) : List String × List String × List String :=
  let secciones := dividir_secciones texto
  (revisar_contenido secciones, revisar_metodologia secciones, analizar_texto texto)

/-- The end-to-end example document of the specification. -/
def textoEjemplo : String :=
  "Introducción\nUno dos tres.\nMetodología\nDiseño de investigación: experimental.\nObjetivos generales: x."

/-- A line holding all four table tokens, but not in the order
`variable`, `dimensiones`, `indicadores`, `unidad de medida`. -/
def lineaDesordenada : String := "dimensiones indicadores unidad de medida variable"

/-- A table line in the order the pattern requires. -/
def lineaTabla : String := "variable dimensiones indicadores unidad de medida"

/-- A document whose references heading line is exactly `Referencias`. -/
def textoRefs : String := "Referencias\nGarcía, A. (2020). Obra."

/-- A document in which a table line interrupts an open section. -/
def textoTabla : String := "Resumen\nhola\nvariable dimensiones indicadores unidad de medida"

/-- A body of `n` whitespace-delimited tokens. -/
def palabras : Nat → String
  | 0 => ""
  | 1 => "w"
  | n + 2 => palabras (n + 1) ++ " w"

/-- Invariant carried by the segmenter scan once a table line has been
seen: the section `opVar` is either already a key of the map built so
far or is the currently open section. -/
def tieneOp (st : SegState) : Prop :=
  tieneClave st.secciones opVar = true ∨ st.current = some opVar

end Tesis

namespace Tesis

theorem splitLines_no_newline (l : List Char) :
    ∀ ln ∈ splitLines l, '\n' ∉ ln := by
  induction l with
  | nil => intro ln hln; simp [splitLines] at hln; simp [hln]
  | cons c rest ih =>
    intro ln hln
    rcases hrec : splitLines rest with _ | ⟨ls, lss⟩
    · simp only [splitLines, hrec] at hln
      simp at hln; simp [hln]
    · simp only [splitLines, hrec] at hln
      by_cases hc : c = '\n'
      · rw [if_pos hc] at hln
        rcases List.mem_cons.mp hln with rfl | hln'
        · simp
        · exact ih ln (hrec ▸ hln')
      · rw [if_neg hc] at hln
        rcases List.mem_cons.mp hln with rfl | hln'
        · intro hmem
          rcases List.mem_cons.mp hmem with h | h
          · exact hc h.symm
          · exact ih ls (hrec ▸ List.mem_cons_self ls lss) h
        · exact ih ln (hrec ▸ List.mem_cons_of_mem ls hln')

theorem foldl_obs (p : String → Bool) (f : String → String) :
    ∀ (L : List String) (acc : List String),
      L.foldl (fun obs s => if p s then obs else obs ++ [f s]) acc
        = acc ++ (L.filter (fun s => !p s)).map f := by
  intro L
  induction L with
  | nil => intro acc; simp
  | cons x xs ih =>
    intro acc
    by_cases h : p x
    · simp [h, ih]
    · simp [h, ih]

theorem obtener_insertAL_self (m : List (String × String)) (k v : String) :
    obtener (insertAL m k v) k = some v := by
  induction m with
  | nil => simp [insertAL, obtener]
  | cons p rest ih =>
    obtain ⟨k', v'⟩ := p
    by_cases h : k' = k
    · simp [insertAL, h, obtener]
    · simp [insertAL, h, obtener, ih]

theorem tieneClave_insertAL_self (m : List (String × String)) (k v : String) :
    tieneClave (insertAL m k v) k = true := by
  simp [tieneClave, obtener_insertAL_self]

theorem tieneClave_insertAL_mono (m : List (String × String)) (k k' v : String)
    (h : tieneClave m k = true) : tieneClave (insertAL m k' v) k = true := by
  induction m with
  | nil => simp [tieneClave, obtener] at h
  | cons p rest ih =>
    obtain ⟨a, b⟩ := p
    simp only [insertAL]
    by_cases ha : a = k'
    · rw [if_pos ha]
      by_cases hk : k' = k
      · simp [tieneClave, obtener, hk]
      · have hak : ¬ a = k := by rw [ha]; exact hk
        simp only [tieneClave, obtener, if_neg hk]
        simp only [tieneClave, obtener, if_neg hak] at h
        exact h
    · rw [if_neg ha]
      by_cases hk : a = k
      · simp [tieneClave, obtener, hk]
      · simp only [tieneClave, obtener, if_neg hk]
        simp only [tieneClave, obtener, if_neg hk] at h
        exact ih h

theorem volcar_opVar (st : SegState) (h : tieneOp st) :
    tieneClave (volcar st) opVar = true := by
  rcases h with h | h
  · unfold volcar
    cases hc : st.current with
    | none => exact h
    | some k => exact tieneClave_insertAL_mono _ _ _ _ h
  · unfold volcar
    rw [h]
    exact tieneClave_insertAL_self _ _ _

theorem procesarLinea_tabla_current (st : SegState) (raw : List Char)
    (ht : tablaMatch (normalizar raw) = true) :
    (procesarLinea st raw).current = some opVar := by
  by_cases h : esEncabezado (normalizar raw) <;> simp [procesarLinea, h, ht]

theorem procesarLinea_preserva (st : SegState) (raw : List Char) (h : tieneOp st) :
    tieneOp (procesarLinea st raw) := by
  by_cases ht : tablaMatch (normalizar raw) = true
  · exact Or.inr (procesarLinea_tabla_current st raw ht)
  · rw [Bool.not_eq_true] at ht
    by_cases hh : esEncabezado (normalizar raw)
    · left
      simp [procesarLinea, hh, ht]
      exact volcar_opVar st h
    · rcases hcur : st.current with _ | k
      · have : procesarLinea st raw = st := by
          simp [procesarLinea, hh, ht, hcur]
        rw [this]; exact h
      · have : procesarLinea st raw =
            { st with contenido := st.contenido ++ [normalizar raw] } := by
          simp [procesarLinea, hh, ht, hcur]
        rw [this]
        rcases h with h | h
        · exact Or.inl h
        · exact Or.inr h

theorem foldl_preserva (lines : List (List Char)) :
    ∀ (st : SegState), tieneOp st → tieneOp (lines.foldl procesarLinea st) := by
  induction lines with
  | nil => intro st h; exact h
  | cons x xs ih =>
    intro st h
    exact ih _ (procesarLinea_preserva st x h)

theorem foldl_tabla (lines : List (List Char)) :
    ∀ (st : SegState), (∃ l ∈ lines, tablaMatch (normalizar l) = true) →
      tieneOp (lines.foldl procesarLinea st) := by
  induction lines with
  | nil =>
    intro st h
    rcases h with ⟨l, hl, _⟩
    exact absurd hl (List.not_mem_nil l)
  | cons x xs ih =>
    intro st h
    rcases h with ⟨l, hl, hm⟩
    rcases List.mem_cons.mp hl with rfl | hl'
    · exact foldl_preserva xs _ (Or.inr (procesarLinea_tabla_current st l hm))
    · exact ih _ ⟨l, hl', hm⟩

theorem mem_foldl_append {α β : Type} (g : α → List β) :
    ∀ (L : List α) (acc : List β) (x : β),
      x ∈ L.foldl (fun obs par => obs ++ g par) acc ↔
        x ∈ acc ∨ ∃ par ∈ L, x ∈ g par := by
  intro L
  induction L with
  | nil => intro acc x; simp
  | cons a as ih =>
    intro acc x
    rw [List.foldl_cons, ih]
    simp [List.mem_append, or_assoc]

theorem mem_chequeaSubs (m : List (String × String)) (seccion contenido : String)
    (x : String) : ∀ subs : List String,
      x ∈ chequeaSubs m seccion contenido subs →
      ∃ sub ∈ subs, x = msgFaltaSub sub seccion ∧
        ¬(sub = "tabla de operacionalización de variables" ∧ tieneClave m opVar = true) := by
  intro subs
  induction subs with
  | nil => intro hx; cases hx
  | cons s resto ih =>
    intro hx
    unfold chequeaSubs at hx
    by_cases h1 : s = "tabla de operacionalización de variables" ∧ tieneClave m opVar = true
    · rw [if_pos h1] at hx
      rcases ih hx with ⟨sub, hs, he⟩
      exact ⟨sub, List.mem_cons_of_mem _ hs, he⟩
    · rw [if_neg h1] at hx
      by_cases h2 : contieneSub s contenido = true
      · rw [if_pos h2] at hx
        rcases ih hx with ⟨sub, hs, he⟩
        exact ⟨sub, List.mem_cons_of_mem _ hs, he⟩
      · rw [if_neg h2] at hx
        rcases List.mem_cons.mp hx with rfl | hx'
        · exact ⟨s, List.mem_cons_self s resto, rfl, h1⟩
        · rcases ih hx' with ⟨sub, hs, he⟩
          exact ⟨sub, List.mem_cons_of_mem _ hs, he⟩

theorem subsecciones_sin_tabla (m : List (String × String))
    (h : tieneClave m opVar = true) :
    msgFaltaSub "tabla de operacionalización de variables" "marco teórico" ∉
      revisar_subsecciones m := by
  intro hmem
  unfold revisar_subsecciones at hmem
  rw [mem_foldl_append] at hmem
  rcases hmem with hmem | ⟨par, hpar, hmem⟩
  · exact absurd hmem (List.not_mem_nil _)
  · rcases mem_chequeaSubs m par.1 (obtenerD m par.1) _ par.2 hmem with ⟨sub, hsub, heq, hneg⟩
    have hpar' : par = ("marco teórico",
        ["revisión de la literatura", "teorías relacionadas",
         "tabla de operacionalización de variables"]) ∨
        par = ("metodología",
        ["diseño de investigación", "objetivos generales", "objetivos específicos"]) := by
      simpa [SUB_SECCIONES_ESPERADAS] using hpar
    rcases hpar' with rfl | rfl
    · simp at hsub
      rcases hsub with rfl | rfl | rfl
      · exact absurd heq (by decide)
      · exact absurd heq (by decide)
      · exact hneg ⟨rfl, h⟩
    · simp at hsub
      rcases hsub with rfl | rfl | rfl
      · exact absurd heq (by decide)
      · exact absurd heq (by decide)
      · exact absurd heq (by decide)

theorem suffix_of_suffix_le (l1 l2 l : List Char) (h1 : l1 <:+ l) (h2 : l2 <:+ l)
    (hle : l1.length ≤ l2.length) : l1 <:+ l2 := by
  obtain ⟨u, hu⟩ := h1
  obtain ⟨v, hv⟩ := h2
  have e1 : l.drop u.length = l1 := by rw [← hu]; exact List.drop_left u l1
  have e2 : l.drop v.length = l2 := by rw [← hv]; exact List.drop_left v l2
  have hlu := congrArg List.length hu
  have hlv := congrArg List.length hv
  rw [List.length_append] at hlu hlv
  have hlen : v.length ≤ u.length := by omega
  have e3 : l2.drop (u.length - v.length) = l1 := by
    rw [← e2, List.drop_drop, Nat.add_sub_cancel' hlen, e1]
  exact ⟨l2.take (u.length - v.length), by rw [← e3]; exact List.take_append_drop _ _⟩

theorem afterFirst_append (pat : List Char) (hp : pat ≠ []) :
    ∀ (a b : List Char), ∃ r, afterFirst pat (a ++ (pat ++ b)) = some r ∧ b <:+ r := by
  intro a
  induction a with
  | nil =>
    intro b
    refine ⟨b, ?_, List.suffix_refl b⟩
    rcases pat with _ | ⟨p, ps⟩
    · exact absurd rfl hp
    · have hc : ((p :: ps) ++ b).take (p :: ps).length = p :: ps := List.take_left _ _
      show afterFirst (p :: ps) ((p :: ps) ++ b) = some b
      rw [List.cons_append] at hc ⊢
      unfold afterFirst
      rw [if_pos hc]
      rw [← List.cons_append, List.drop_left]
  | cons x a' ih =>
    intro b
    by_cases hc : (x :: (a' ++ (pat ++ b))).take pat.length = pat
    · refine ⟨(x :: (a' ++ (pat ++ b))).drop pat.length, ?_, ?_⟩
      · show afterFirst pat (x :: (a' ++ (pat ++ b))) = _
        unfold afterFirst
        rw [if_pos hc]
      · apply suffix_of_suffix_le b _ (x :: (a' ++ (pat ++ b)))
        · exact ⟨x :: (a' ++ pat), by simp⟩
        · exact ⟨(x :: (a' ++ (pat ++ b))).take pat.length, List.take_append_drop _ _⟩
        · rw [List.length_drop]
          simp only [List.length_cons, List.length_append]
          omega
    · rcases ih b with ⟨r, hr, hs⟩
      refine ⟨r, ?_, hs⟩
      show afterFirst pat (x :: (a' ++ (pat ++ b))) = some r
      unfold afterFirst
      rw [if_neg hc]
      exact hr

theorem tablaMatch_decomp (a b c d e : List Char) :
    tablaMatch (a ++ "variable".data ++ b ++ "dimensiones".data ++ c ++
      "indicadores".data ++ d ++ "unidad de medida".data ++ e) = true := by
  have hshape : a ++ "variable".data ++ b ++ "dimensiones".data ++ c ++
      "indicadores".data ++ d ++ "unidad de medida".data ++ e =
      a ++ ("variable".data ++ (b ++ ("dimensiones".data ++ (c ++
        ("indicadores".data ++ (d ++ ("unidad de medida".data ++ e))))))) := by
    simp [List.append_assoc]
  rw [hshape]
  obtain ⟨r1, e1, s1⟩ := afterFirst_append "variable".data (by decide) a
    (b ++ ("dimensiones".data ++ (c ++ ("indicadores".data ++
      (d ++ ("unidad de medida".data ++ e))))))
  obtain ⟨z1, hz1⟩ := s1
  obtain ⟨r2, e2, s2⟩ := afterFirst_append "dimensiones".data (by decide) (z1 ++ b)
    (c ++ ("indicadores".data ++ (d ++ ("unidad de medida".data ++ e))))
  rw [show (z1 ++ b) ++ ("dimensiones".data ++ (c ++ ("indicadores".data ++
      (d ++ ("unidad de medida".data ++ e))))) = r1 from by
    rw [← hz1]; simp [List.append_assoc]] at e2
  obtain ⟨z2, hz2⟩ := s2
  obtain ⟨r3, e3, s3⟩ := afterFirst_append "indicadores".data (by decide) (z2 ++ c)
    (d ++ ("unidad de medida".data ++ e))
  rw [show (z2 ++ c) ++ ("indicadores".data ++ (d ++ ("unidad de medida".data ++ e))) = r2 from by
    rw [← hz2]; simp [List.append_assoc]] at e3
  obtain ⟨z3, hz3⟩ := s3
  obtain ⟨r4, e4, _⟩ := afterFirst_append "unidad de medida".data (by decide) (z3 ++ d) e
  rw [show (z3 ++ d) ++ ("unidad de medida".data ++ e) = r3 from by
    rw [← hz3]; simp [List.append_assoc]] at e4
  unfold tablaMatch
  rw [e1]
  show (afterFirst "dimensiones".data r1 >>= fun r2 =>
    afterFirst "indicadores".data r2 >>= fun r3 =>
    afterFirst "unidad de medida".data r3).isSome = true
  rw [e2]
  show (afterFirst "indicadores".data r2 >>= fun r3 =>
    afterFirst "unidad de medida".data r3).isSome = true
  rw [e3]
  show (afterFirst "unidad de medida".data r3).isSome = true
  rw [e4]
  rfl

theorem msgFaltaSeccion_inj :
    ∀ x ∈ ESTRUCTURA_ESPERADA, ∀ y ∈ ESTRUCTURA_ESPERADA,
      msgFaltaSeccion x = msgFaltaSeccion y → x = y := by decide

/-- C1 counterexample: on the specification's own end-to-end example
document, the structural observation list returned by the orchestration
is not the Structural Validator output followed by the Subsection
Validator output alone — `analizar_texto` also appends the Content
Validator's introduction check to it. -/
theorem orquestador_estructura_contraejemplo :
    (procesarSubida textoEjemplo).2.2 ≠
      revisar_estructura (dividir_secciones textoEjemplo) ++
        revisar_subsecciones (dividir_secciones textoEjemplo) := by decide

/-- C1 (amended): `procesarSubida` returns three lists where the
content list is exactly the introduction check output, the methodology
list is exactly the methodology checks' output, and the structural list
is the Structural Validator output followed by the Subsection Validator
output followed by the introduction check output; on the end-to-end
example this yields the twelve observations listed. -/
theorem orquestador_composicion :
    (∀ texto : String,
      procesarSubida texto =
        (revisar_contenido (dividir_secciones texto),
         revisar_metodologia (dividir_secciones texto),
         revisar_estructura (dividir_secciones texto) ++
           revisar_subsecciones (dividir_secciones texto) ++
           revisar_contenido (dividir_secciones texto))) ∧
    procesarSubida textoEjemplo =
      (["La sección de Introducción parece demasiado corta."], [],
       ["Falta la sección: Resumen.", "Falta la sección: Índice.",
        "Falta la sección: Marco teórico.", "Falta la sección: Resultados.",
        "Falta la sección: Conclusiones.",
        "Falta la sección: Referencias bibliográficas.", "Falta la sección: Anexos.",
        "Falta la subsección: \x27revisión de la literatura\x27 en la sección Marco teórico.",
        "Falta la subsección: \x27teorías relacionadas\x27 en la sección Marco teórico.",
        "Falta la subsección: \x27tabla de operacionalización de variables\x27 en la sección Marco teórico.",
        "Falta la subsección: \x27objetivos específicos\x27 en la sección Metodología.",
        "La sección de Introducción parece demasiado corta."]) :=
  ⟨fun _ => rfl, by decide⟩

/-- C2 counterexample: a line holding the four tokens `variable`,
`dimensiones`, `indicadores`, `unidad de medida` in a different
relative order is not matched by the table pattern, and the segmenter
does not open the section on it. -/
theorem tabla_orden_contraejemplo :
    (contieneSub "variable" lineaDesordenada = true ∧
     contieneSub "dimensiones" lineaDesordenada = true ∧
     contieneSub "indicadores" lineaDesordenada = true ∧
     contieneSub "unidad de medida" lineaDesordenada = true) ∧
    tablaMatch lineaDesordenada.data = false ∧
    tieneClave (dividir_secciones lineaDesordenada) opVar = false :=
  ⟨by decide, by decide, by decide⟩

/-- C2 (amended): for every line containing the four tokens in the
fixed order `variable`, then `dimensiones`, then `indicadores`, then
`unidad de medida` (each occurrence after the end of the previous one),
the table pattern matches the line and the segmenter opens (or
continues) the section `operacionalización de variables` on it. -/
theorem tabla_fichas_en_orden (st : SegState) (raw : List Char)
    (a b c d e : List Char)
    (hdec : normalizar raw = a ++ "variable".data ++ b ++ "dimensiones".data ++ c ++
      "indicadores".data ++ d ++ "unidad de medida".data ++ e) :
    tablaMatch (normalizar raw) = true ∧
    (procesarLinea st raw).current = some opVar := by
  have ht : tablaMatch (normalizar raw) = true := by
    rw [hdec]; exact tablaMatch_decomp a b c d e
  exact ⟨ht, procesarLinea_tabla_current st raw ht⟩

/-- Witness for the amended C2 at a concrete table line. -/
theorem tabla_fichas_en_orden_testigo :
    tablaMatch (normalizar lineaTabla.data) = true ∧
    (procesarLinea ⟨[], none, []⟩ lineaTabla.data).current = some opVar :=
  tabla_fichas_en_orden ⟨[], none, []⟩ lineaTabla.data
    [] " ".data " ".data " ".data [] (by decide)

/-- C3: whenever some line of the input matches the table pattern, the
resulting Section Map contains the key `operacionalización de
variables`, and the Subsection Validator emits no missing-subsection
observation for the marker `tabla de operacionalización de variables`. -/
theorem tabla_genera_seccion (texto : String)
    (h : ∃ l ∈ splitLines texto.data, tablaMatch (normalizar l) = true) :
    tieneClave (dividir_secciones texto) opVar = true ∧
    msgFaltaSub "tabla de operacionalización de variables" "marco teórico" ∉
      revisar_subsecciones (dividir_secciones texto) := by
  have hk : tieneClave (dividir_secciones texto) opVar = true := by
    unfold dividir_secciones
    exact volcar_opVar _ (foldl_tabla _ _ h)
  exact ⟨hk, subsecciones_sin_tabla _ hk⟩

/-- Witness for C3 at a document consisting of a single table line. -/
theorem tabla_genera_seccion_testigo :
    tieneClave (dividir_secciones lineaTabla) opVar = true ∧
    msgFaltaSub "tabla de operacionalización de variables" "marco teórico" ∉
      revisar_subsecciones (dividir_secciones lineaTabla) :=
  tabla_genera_seccion lineaTabla (by decide)

/-- C4: when the table pattern matches a line while a section is open
and no heading pattern matched that line, the step does not flush the
open section: the map is unchanged, the accumulated buffer is retained
with the line appended (so it becomes part of the forced section's
body), and the open section becomes `operacionalización de variables`;
concretely, a `Resumen` section interrupted by a table line leaves no
`resumen` entry and its line ends up in the table section's body. -/
theorem tabla_no_vuelca (st : SegState) (raw : List Char) (k : String)
    (_hcur : st.current = some k)
    (hh : esEncabezado (normalizar raw) = false)
    (ht : tablaMatch (normalizar raw) = true) :
    procesarLinea st raw =
      { secciones := st.secciones, current := some opVar,
        contenido := st.contenido ++ [normalizar raw] } ∧
    dividir_secciones textoTabla =
      [(opVar, "hola\nvariable dimensiones indicadores unidad de medida")] := by
  refine ⟨?_, by decide⟩
  simp [procesarLinea, hh, ht]

/-- Witness for C4 at a state with the section `resumen` open. -/
theorem tabla_no_vuelca_testigo :
    procesarLinea ⟨[], some "resumen", ["hola".data]⟩ lineaTabla.data =
      { secciones := [], current := some opVar,
        contenido := ["hola".data] ++ [normalizar lineaTabla.data] } ∧
    dividir_secciones textoTabla =
      [(opVar, "hola\nvariable dimensiones indicadores unidad de medida")] :=
  tabla_no_vuelca ⟨[], some "resumen", ["hola".data]⟩ lineaTabla.data "resumen"
    rfl (by decide) (by decide)

/-- C5: the Structural Validator output is exactly one missing-section
observation per expected section name absent from the map, in Expected
Structure order, with no duplicates and no observation for keys outside
the expected list. -/
theorem estructura_faltantes (m : List (String × String)) :
    revisar_estructura m =
      (ESTRUCTURA_ESPERADA.filter (fun s => !tieneClave m s)).map msgFaltaSeccion ∧
    (revisar_estructura m).Nodup := by
  have h : revisar_estructura m =
      (ESTRUCTURA_ESPERADA.filter (fun s => !tieneClave m s)).map msgFaltaSeccion := by
    have e := foldl_obs (tieneClave m) msgFaltaSeccion ESTRUCTURA_ESPERADA []
    simpa [revisar_estructura] using e
  refine ⟨h, ?_⟩
  rw [h]
  apply List.Nodup.map_on
  · intro x hx y hy hxy
    exact msgFaltaSeccion_inj x (List.mem_of_mem_filter hx) y
      (List.mem_of_mem_filter hy) hxy
  · exact List.Nodup.filter _ (by decide)

set_option maxRecDepth 40000 in
/-- C6: the short-introduction observation is emitted exactly when the
`introducción` body (empty if absent) has fewer than 100
whitespace-delimited tokens; a 99-token body triggers it and a
100-token body does not. -/
theorem introduccion_umbral :
    (∀ m : List (String × String),
      msgIntroCorta ∈ revisar_contenido m ↔
        cuentaTokens (obtenerD m "introducción").data < 100) ∧
    revisar_contenido [("introducción", palabras 99)] = [msgIntroCorta] ∧
    revisar_contenido [("introducción", palabras 100)] = [] := by
  refine ⟨fun m => ?_, by decide, by decide⟩
  by_cases h : cuentaTokens (obtenerD m "introducción").data < 100 <;>
    simp [revisar_contenido, h]

/-- C7: on the `metodología` body (empty if absent), the
missing-research-design observation is emitted iff `diseño de
investigación` is absent, and the missing-objectives observation is
emitted — exactly once — iff both `objetivos generales` and `objetivos
específicos` are absent. -/
theorem metodologia_condiciones (m : List (String × String)) :
    (msgDiseno ∈ revisar_metodologia m ↔
      contieneSub "diseño de investigación" (obtenerD m "metodología") = false) ∧
    (msgObjetivos ∈ revisar_metodologia m ↔
      (contieneSub "objetivos generales" (obtenerD m "metodología") = false ∧
       contieneSub "objetivos específicos" (obtenerD m "metodología") = false)) ∧
    (revisar_metodologia m).count msgObjetivos =
      (if contieneSub "objetivos generales" (obtenerD m "metodología") = false ∧
          contieneSub "objetivos específicos" (obtenerD m "metodología") = false
       then 1 else 0) := by
  by_cases h1 : contieneSub "diseño de investigación" (obtenerD m "metodología") = true <;>
  by_cases h2 : contieneSub "objetivos generales" (obtenerD m "metodología") = true <;>
  by_cases h3 : contieneSub "objetivos específicos" (obtenerD m "metodología") = true <;>
    simp [revisar_metodologia, h1, h2, h3] <;> decide

/-- C8: the analysis is a total function of the input string — the
embedding returns observation lists for every input — and on the three
degenerate inputs named by the specification (empty string, text with
no detectable heading, text consisting only of a table-pattern line) it
returns the full complement of missing-structure observations. -/
theorem analisis_total :
    (∀ texto : String, ∃ r, procesarSubida texto = r) ∧
    (analizar_texto "").length = 16 ∧
    (analizar_texto "hola mundo").length = 16 ∧
    (analizar_texto lineaTabla).length = 15 :=
  ⟨fun _ => ⟨_, rfl⟩, by decide, by decide, by decide⟩

/-- C9: segmentation is deterministic and pure — it is a function of
the input text alone, so identical inputs yield identical Section Maps
(same keys, same bodies, same insertion order, the map being an ordered
association list). -/
theorem segmentacion_determinista (t1 t2 : String) (h : t1 = t2) :
    dividir_secciones t1 = dividir_secciones t2 := by rw [h]

/-- Witness for C9 on a concrete repeated input. -/
theorem segmentacion_determinista_testigo :
    dividir_secciones "Resumen\nhola" = dividir_secciones "Resumen\nhola" :=
  segmentacion_determinista "Resumen\nhola" "Resumen\nhola" rfl

/-- C10: a heading line reading exactly `Referencias` opens a section
keyed `referencias`, not the expected name `referencias
bibliográficas`; on such a document the map holds `referencias`, lacks
`referencias bibliográficas`, and the Structural Validator still emits
the missing-section observation for `referencias bibliográficas`. -/
theorem referencias_clave_distinta :
    (∀ (st : SegState) (raw : List Char),
      normalizar raw = "referencias".data →
      (procesarLinea st raw).current = some "referencias") ∧
    (tieneClave (dividir_secciones textoRefs) "referencias" = true ∧
     tieneClave (dividir_secciones textoRefs) "referencias bibliográficas" = false ∧
     msgFaltaSeccion "referencias bibliográficas" ∈
       revisar_estructura (dividir_secciones textoRefs)) := by
  constructor
  · intro st raw h
    have hh : esEncabezado (normalizar raw) = true := by rw [h]; decide
    have ht : tablaMatch (normalizar raw) = false := by rw [h]; decide
    have e : (procesarLinea st raw).current = some (sanitizar (normalizar raw)) := by
      simp [procesarLinea, hh, ht]
    rw [e, h]
    decide
  · exact ⟨by decide, by decide, by decide⟩

/-- Witness for C10's universal part at the line `Referencias`. -/
theorem referencias_clave_distinta_testigo :
    (procesarLinea ⟨[], none, []⟩ "Referencias".data).current = some "referencias" :=
  referencias_clave_distinta.1 ⟨[], none, []⟩ "Referencias".data (by decide)

end Tesis
